import Mathlib

/-!
Shallow embedding of the dgrr/websocket server core.

The repository ships two variants of the server core side by side:

* the `Conn`-based variant: `conn.go` together with the server file defining
  `Server.serveConn`, `Server.handleFrame`, `Server.handleFrameData`,
  `Server.handleControl`, `Server.handlePing`, `Server.handlePong` and
  `Server.handleClose` (the file also containing `initServer`);
* the `ServerConn`-based variant: `serverConn.go` together with the older
  server file (the one containing `checkDefaults`), whose handlers are
  embedded here under the `V4` namespace.

The frame codec file (`frame.go`) is not part of the sources; only its
callers, tests and the specification describe it.  The `Frame` value object
and its accessors are therefore modelled from the spec (see the doc comment
on `Frame`).  Everything else is translated directly from the Go sources.

Callbacks and channel operations are embedded as explicit effect lists: a
handler returns the list of observable actions it performs (callback
invocations, frames enqueued on the outbound queue, error-mailbox sends,
closing of the closer latch) in program order.  The supervisor loop
(`serveConn`) is embedded as a function over an explicit schedule of select
events, which makes the nondeterministic choice of Go `select` between
simultaneously ready channels a quantifiable parameter.
-/

namespace Ws

/-- Status codes are 16-bit close codes; the spec's sentinel `StatusNone`
("no status in close payload") is modelled as `Option.none`. -/
abbrev StatusCode := Option Nat

/-- Modelled from the spec: the "none" sentinel status. -/
def StatusNone : StatusCode := Option.none

/-- Opcode of a continuation frame (spec wire format: 0 = cont). -/
def CodeContinuation : Nat := 0

/-- Opcode of a text frame (spec wire format: 1 = text). -/
def CodeText : Nat := 1

/-- Opcode of a binary frame (spec wire format: 2 = binary). -/
def CodeBinary : Nat := 2

/-- Opcode of a close frame (spec wire format: 8 = close). -/
def CodeClose : Nat := 8

/-- Opcode of a ping frame (spec wire format: 9 = ping). -/
def CodePing : Nat := 9

/-- Opcode of a pong frame (spec wire format: 10 = pong). -/
def CodePong : Nat := 10

/-- Modelled from the spec: the `Frame` value object of the missing codec
file (`frame.go`).  Per spec section 4.1 a frame carries a FIN flag, an
opcode, a MASK flag with a 4-byte masking key, and payload bytes; a close
frame's payload is either empty or begins with a 2-byte big-endian status
code optionally followed by reason bytes.  Here the close status is carried
as a separate `StatusCode` field (with `Option.none` as the spec's
`StatusNone` sentinel for an empty status part) and `payload` holds the
remaining bytes; this matches the accessor behaviour the repository's own
test relies on (`Payload()` of a received close frame yields the reason
bytes and `Status()` the code).  Reserved bits are irrelevant to the claims
and omitted.  Bytes are `Nat`s (values < 256 on the wire). -/
structure Frame where
  fin : Bool := false
  opcode : Nat := 0
  masked : Bool := false
  maskKey : List Nat := []
  status : StatusCode := Option.none
  payload : List Nat := []
deriving DecidableEq, Repr

/-- Modelled from the spec: `AcquireFrame` hands out a frame in its reset
state (no FIN, continuation opcode, unmasked, empty payload, no status). -/
def AcquireFrame : Frame := {}

namespace Frame

/-- Modelled from the spec: `is_fin` predicate. -/
def IsFin (fr : Frame) : Bool := fr.fin

/-- Modelled from the spec: `is_control` holds for opcode >= 8. -/
def IsControl (fr : Frame) : Bool := 8 ≤ fr.opcode

/-- Modelled from the spec: ping predicate (opcode 9). -/
def IsPing (fr : Frame) : Bool := fr.opcode = CodePing

/-- Modelled from the spec: pong predicate (opcode 10). -/
def IsPong (fr : Frame) : Bool := fr.opcode = CodePong

/-- Modelled from the spec: close predicate (opcode 8). -/
def IsClose (fr : Frame) : Bool := fr.opcode = CodeClose

/-- Modelled from the spec: MASK flag accessor. -/
def IsMasked (fr : Frame) : Bool := fr.masked

/-- Modelled from the spec: `code` returns the frame opcode. -/
def Code (fr : Frame) : Nat := fr.opcode

/-- Modelled from the spec: `status` returns the close status code, or the
`StatusNone` sentinel when the close payload carried none. -/
def Status (fr : Frame) : StatusCode := fr.status

/-- Modelled from the spec: `Payload` returns the payload bytes (for a
close frame, the reason bytes after the status code). -/
def Payload (fr : Frame) : List Nat := fr.payload

/-- Modelled from the spec: set the FIN flag. -/
def SetFin (fr : Frame) : Frame := { fr with fin := true }

/-- Modelled from the spec: set the opcode. -/
def SetCode (fr : Frame) (c : Nat) : Frame := { fr with opcode := c }

/-- Modelled from the spec: mark the frame as a close frame. -/
def SetClose (fr : Frame) : Frame := fr.SetCode CodeClose

/-- Modelled from the spec: mark the frame as a text frame. -/
def SetText (fr : Frame) : Frame := fr.SetCode CodeText

/-- Modelled from the spec: mark the frame as a ping frame. -/
def SetPing (fr : Frame) : Frame := fr.SetCode CodePing

/-- Modelled from the spec: replace the payload bytes. -/
def SetPayload (fr : Frame) (data : List Nat) : Frame := { fr with payload := data }

/-- Modelled from the spec: set the close status code. -/
def SetStatus (fr : Frame) (s : StatusCode) : Frame := { fr with status := s }

/-- Modelled from the spec: `io.WriteString` on a frame appends bytes to
the payload (used by `CloseDetail` to write the close reason). -/
def WriteString (fr : Frame) (data : List Nat) : Frame :=
  { fr with payload := fr.payload ++ data }

/-- Modelled from the spec: `Unmask` XORs the payload with the 4-byte key
cycled over its length and clears the MASK flag. -/
def Unmask (fr : Frame) : Frame :=
  { fr with
    payload := fr.payload.mapIdx fun i b => b ^^^ fr.maskKey.getD (i % 4) 0
    masked := false }

end Frame

/-- Go `error` values circulating in the pipeline, from `error.go` and
`conn.go`: `wsError` embeds the typed `Error{Status, Reason}` of
`error.go`; `closeWrapped` embeds the `closeError` wrapper of `conn.go`
(its `Unwrap` returns the inner error); `other` stands for any other error
value (transport or I/O errors), distinguished by a tag. -/
inductive GoErr where
  | wsError (status : StatusCode) (reason : List Nat)
  | closeWrapped (inner : GoErr)
  | other (tag : Nat)
deriving DecidableEq, Repr

/-- Observable actions of the server handlers, in program order: callback
invocations, a frame enqueued on the outbound queue (`WriteFrame`), a send
on the error mailbox (the sent value is an `Option GoErr`, `Option.none`
being Go nil), and the closing of the closer latch. -/
inductive Effect where
  | deliverMsg (isBinary : Bool) (data : List Nat)
  | callPing (data : List Nat)
  | callPong (data : List Nat)
  | callError (e : GoErr)
  | callClose (e : Option GoErr)
  | enqueueFrame (fr : Frame)
  | writeFrameDirect (fr : Frame)
  | sendErr (e : Option GoErr)
  | closeLatch
deriving DecidableEq, Repr

/-- Which of the optional callbacks the application registered (whether the
corresponding handler field of `Server` is non-nil). -/
structure Handlers where
  hasMsg : Bool := true
  hasPing : Bool := true
  hasPong : Bool := true
  hasErr : Bool := true
  hasClose : Bool := true
deriving DecidableEq, Repr

namespace Server

/-- Embeds `Server.handleFrameData` of the `Conn`-based server file: given
the current reassembly buffer (`c.buffered`, `Option.none` when absent) and
an (already unmasked) data frame, returns the new buffer together with the
effects.  The local `data` starts nil; with no buffer a FIN frame's payload
is delivered directly and a non-FIN frame starts the buffer; with a buffer
present the payload is appended and a FIN frame hands the buffer over for
delivery and releases it.  The message callback fires only when `data` is
nonempty and a message handler is registered.  Note that `isBinary` is
computed from the opcode of the frame being handled, not from the frame
that started the fragmented message. -/
def handleFrameData (cfg : Handlers) (buffered : Option (List Nat)) (fr : Frame) :
    Option (List Nat) × List Effect :=
  let isBinary := fr.Code = CodeBinary
  let step : Option (List Nat) × List Nat :=
    match buffered with
    | Option.none =>
      if fr.IsFin then (Option.none, fr.Payload)
      else (some fr.Payload, [])
    | some bf =>
      let bf2 := bf ++ fr.Payload
      if fr.IsFin then (Option.none, bf2) else (some bf2, [])
  (step.1,
    if step.2 ≠ [] ∧ cfg.hasMsg then [Effect.deliverMsg isBinary step.2] else [])

/-- Embeds `Server.handlePing` of the `Conn`-based server file: invoke the
ping callback when registered, then acquire a pong frame, set opcode pong,
copy the payload, set FIN, and enqueue it via `WriteFrame`. -/
def handlePing (cfg : Handlers) (data : List Nat) : List Effect :=
  (if cfg.hasPing then [Effect.callPing data] else []) ++
    [Effect.enqueueFrame (((AcquireFrame.SetCode CodePong).SetPayload data).SetFin)]

/-- Embeds `Server.handlePong` of the `Conn`-based server file. -/
def handlePong (cfg : Handlers) (data : List Nat) : List Effect :=
  if cfg.hasPong then [Effect.callPong data] else []

/-- Embeds `Server.handleClose` of the `Conn`-based server file: send on
the error mailbox the typed `Error{Status, Reason}` when the status is not
`StatusNone` and nil otherwise, acquire a reply close frame carrying the
same status with FIN set and enqueue it via `WriteFrame`, and finally (by
`defer`) close the closer latch through `closeOnce`. -/
def handleClose (fr : Frame) : List Effect :=
  [Effect.sendErr
      (if fr.Status ≠ StatusNone then
        some (GoErr.wsError fr.Status fr.Payload)
      else Option.none),
    Effect.enqueueFrame (((AcquireFrame.SetClose).SetStatus fr.Status).SetFin),
    Effect.closeLatch]

/-- Embeds `Server.handleControl` of the `Conn`-based server file. -/
def handleControl (cfg : Handlers) (fr : Frame) : List Effect :=
  if fr.IsPing then handlePing cfg fr.Payload
  else if fr.IsPong then handlePong cfg fr.Payload
  else if fr.IsClose then handleClose fr
  else []

/-- Embeds `Server.handleFrame` of the `Conn`-based server file, the
default frame handler installed by `initServer`: unmask a masked frame,
then dispatch control frames to `handleControl` (which leaves the
reassembly buffer untouched) and data frames to `handleFrameData`. -/
def handleFrame (cfg : Handlers) (buffered : Option (List Nat)) (fr : Frame) :
    Option (List Nat) × List Effect :=
  let fr := if fr.IsMasked then fr.Unmask else fr
  if fr.IsControl then (buffered, handleControl cfg fr)
  else handleFrameData cfg buffered fr

/-- Runs the default frame handler over a list of inbound frames in wire
order, as the supervisor does when the inbound queue delivers them one by
one, threading the reassembly buffer and concatenating effects. -/
def handleFrames (cfg : Handlers) (buffered : Option (List Nat)) :
    List Frame → Option (List Nat) × List Effect
  | [] => (buffered, [])
  | fr :: rest =>
    let step := handleFrame cfg buffered fr
    let next := handleFrames cfg step.1 rest
    (next.1, step.2 ++ next.2)

end Server

/-- One ready select case in the supervisor loop of `Server.serveConn`
(`Conn`-based variant): a frame delivered by the inbound queue, an error
delivered by the error mailbox (`Option.none` is a nil error value), or the
closer latch having been closed.  A run of the loop is driven by a schedule
listing, in order, which ready case each iteration of the `select` takes;
Go chooses among simultaneously ready cases nondeterministically, so the
schedule is universally quantified in theorems. -/
inductive SelEvent where
  | inputEv (fr : Frame)
  | errEv (e : Option GoErr)
  | closerEv
deriving DecidableEq, Repr

/-- Supervisor-local state of `Server.serveConn` (`Conn`-based variant):
the reassembly buffer of the connection and the local `closeErr`. -/
structure SupState where
  buffered : Option (List Nat) := Option.none
  closeErr : Option GoErr := Option.none
deriving DecidableEq, Repr

namespace Server

/-- Embeds one iteration of the select loop of `Server.serveConn`
(`Conn`-based variant).  Returns the new state, the effects of the
iteration, and whether the loop continues (`false` exactly when the Go
code executes `break loop`).  On an inbound frame the frame handler runs;
on a mailbox delivery: a nil error breaks the loop, a `closeError` breaks
it remembering the unwrapped inner error as `closeErr`, a typed `Error`
breaks it remembering the error itself, and any other error is passed to
the error callback when registered, continuing the loop; on the closer
latch the loop breaks. -/
def serveConnStep (cfg : Handlers) (st : SupState) :
    SelEvent → SupState × List Effect × Bool
  | SelEvent.inputEv fr =>
    let step := handleFrame cfg st.buffered fr
    ({ st with buffered := step.1 }, step.2, true)
  | SelEvent.errEv e =>
    match e with
    | Option.none => (st, [], false)
    | some (GoErr.closeWrapped w) => ({ st with closeErr := some w }, [], false)
    | some (GoErr.wsError s r) =>
      ({ st with closeErr := some (GoErr.wsError s r) }, [], false)
    | some (GoErr.other t) =>
      (st, if cfg.hasErr then [Effect.callError (GoErr.other t)] else [], true)
  | SelEvent.closerEv => (st, [], false)

/-- Embeds `Server.serveConn` (`Conn`-based variant) run against a
schedule of ready select events: iterations run in schedule order until
one breaks the loop, at which point the close callback is invoked exactly
once with `closeErr` (when registered).  Returns the effects and whether
the loop exited within the schedule (`false` means the supervisor is still
blocked in `select` waiting for further events). -/
def serveConnRun (cfg : Handlers) (st : SupState) :
    List SelEvent → List Effect × Bool
  | [] => ([], false)
  | ev :: rest =>
    let step := serveConnStep cfg st ev
    if step.2.2 then
      let next := serveConnRun cfg step.1 rest
      (step.2.1 ++ next.1, next.2)
    else
      (step.2.1 ++ (if cfg.hasClose then [Effect.callClose step.1.closeErr] else []),
        true)

end Server

/-- State touched by the local close path of `conn.go`: whether the closer
latch has been closed and the contents of the outbound queue. -/
structure CloserState where
  closerClosed : Bool := false
  output : List Frame := []
deriving DecidableEq, Repr

namespace Conn

/-- Embeds `Conn.CloseDetail` of `conn.go`: when the closer latch is not
yet closed (`isClosed`), acquire a close frame, set its status and FIN,
append the reason bytes to its payload, enqueue it on the outbound queue
via `WriteFrame`, and close the latch through `closeOnce`; when the latch
is already closed, do nothing. -/
def CloseDetail (st : CloserState) (status : StatusCode) (reason : List Nat) :
    CloserState :=
  if st.closerClosed then st
  else
    { closerClosed := true
      output := st.output ++
        [(((AcquireFrame.SetClose).SetStatus status).SetFin).WriteString reason] }

/-- Sequential invocations of `Conn.CloseDetail`, one per list entry. -/
def closeMany (st : CloserState) : List (StatusCode × List Nat) → CloserState
  | [] => st
  | (s, r) :: rest => closeMany (CloseDetail st s r) rest

/-- Outcome of the writer task of `conn.go`: it either returned, having
written the given frames in order, or it is blocked forever in a receive
on the outbound channel (which no code ever closes). -/
inductive WriterResult where
  | exited (written : List Frame)
  | blocked (written : List Frame)
deriving DecidableEq, Repr

/-- Embeds the post-latch drain loop of `Conn.writeLoop`
(`for n := len(c.output); n >= 0; n--`): `fuel` counts the remaining
iterations (the loop performs `len(output) + 1` receives in total), `q`
the frames still in the outbound queue, `written` those written so far.
Each iteration performs a blocking receive; since the outbound channel is
never closed, a receive on the empty queue blocks forever (no producer
enqueues after the latch in this model, matching the claim's scenario).
Writes are modelled error-free. -/
def drainLoop : Nat → List Frame → List Frame → WriterResult
  | 0, _, written => WriterResult.exited written
  | _ + 1, [], written => WriterResult.blocked written
  | n + 1, fr :: q, written => drainLoop n q (written ++ [fr])

/-- Embeds `Conn.writeLoop` of `conn.go` against a schedule: `sel` lists
the frames the select phase takes from the outbound queue before the
closer latch case fires, and `q` the frames remaining in the queue when it
does.  In the select phase each frame is written and released, and the
writer returns immediately after writing a close frame; once the latch
case fires the drain loop runs with `len(q) + 1` iterations. -/
def writeLoopGo (written : List Frame) : List Frame → List Frame → WriterResult
  | [], q => drainLoop (q.length + 1) q written
  | fr :: rest, q =>
    if fr.IsClose then WriterResult.exited (written ++ [fr])
    else writeLoopGo (written ++ [fr]) rest q

/-- The writer task of `conn.go` started with an empty written list. -/
def writeLoop (sel q : List Frame) : WriterResult := writeLoopGo [] sel q

end Conn

namespace V4

/-- Embeds `Server.handlePing` of the `ServerConn`-based server file (the
default ping handler installed by `checkDefaults`): acquire a frame, set
opcode pong, copy the payload, and enqueue it via `WriteFrame`.  This
variant does not set FIN on the pong. -/
def handlePing (data : List Nat) : List Effect :=
  [Effect.enqueueFrame ((AcquireFrame.SetCode CodePong).SetPayload data)]

/-- Embeds the ping path of the `ServerConn`-based server: `checkDefaults`
installs the default `handlePing` only when no user ping handler was
registered, and `handleControl` invokes `s.pingHandler` for a ping frame.
A registered user ping callback therefore replaces the default pong
responder entirely. -/
def pingDispatch (hasUserPing : Bool) (data : List Nat) : List Effect :=
  if hasUserPing then [Effect.callPing data] else handlePing data

/-- Embeds `ServerConn.Close` of `serverConn.go`.  The function selects on
the closer latch with a `default` arm that returns nil; only when the
latch is already closed does control fall through to `close(c.closer)`,
which panics (close of a closed channel).  The result is `Option.none` for
a run-time panic, and otherwise the new latch state paired with the
effects performed (none: no close frame is ever produced). -/
def ServerConnClose (closerClosed : Bool) : Option (Bool × List Effect) :=
  if closerClosed then Option.none
  else some (closerClosed, [])

end V4

/-- Embeds the inner loop of `selectProtocol` of `upgrader.go`: for each
client-offered protocol in order, return the first server-accepted entry
equal to it. -/
def selLoop : List String → List String → Option String
  | [], _ => Option.none
  | p :: rest, accepted =>
    match accepted.find? fun accept => p = accept with
    | some accept => some accept
    | Option.none => selLoop rest accepted

/-- Embeds `selectProtocol` of `upgrader.go`: empty offer list yields the
empty string; otherwise the nested loops return the first client offer
matching some accepted entry, and failing that the first client offer. -/
def selectProtocol (protos : List String) (accepted : List String) : String :=
  match protos with
  | [] => ""
  | p0 :: _ =>
    match selLoop protos accepted with
    | some accept => accept
    | Option.none => p0

/-- Embeds `DefaultPayloadSize` (`conn.go` and `serverConn.go`). -/
def DefaultPayloadSize : Nat := 1 <<< 20

/-- Channel capacities and defaults established by `Conn.reset`
(`conn.go`) and `ServerConn.reset` (`serverConn.go`): both make `input`
and `output` with capacity 128, `closer` with capacity 1, `errch` with
capacity 2, zero the timeouts and set `MaxPayloadSize` to
`DefaultPayloadSize`.  `MaxPayloadSize` is an exported, per-connection
mutable field. -/
structure ConnConfig where
  inputCap : Nat
  outputCap : Nat
  closerCap : Nat
  errchCap : Nat
  readTimeout : Nat
  writeTimeout : Nat
  maxPayloadSize : Nat
deriving DecidableEq, Repr

/-- Embeds `Conn.reset` of `conn.go` (configuration part). -/
def Conn.reset : ConnConfig :=
  { inputCap := 128
    outputCap := 128
    closerCap := 1
    errchCap := 2
    readTimeout := 0
    writeTimeout := 0
    maxPayloadSize := DefaultPayloadSize }

/-- Embeds `ServerConn.reset` of `serverConn.go` (configuration part). -/
def ServerConn.reset : ConnConfig :=
  { inputCap := 128
    outputCap := 128
    closerCap := 1
    errchCap := 2
    readTimeout := 0
    writeTimeout := 0
    maxPayloadSize := DefaultPayloadSize }

/-- Overriding the per-connection `MaxPayloadSize` field. -/
def ConnConfig.setMaxPayloadSize (c : ConnConfig) (n : Nat) : ConnConfig :=
  { c with maxPayloadSize := n }

/-- A non-final continuation fragment with the given payload. -/
def contFrame (p : List Nat) : Frame := { opcode := CodeContinuation, payload := p }

/-- A final continuation fragment with the given payload. -/
def contFinFrame (p : List Nat) : Frame :=
  { opcode := CodeContinuation, fin := true, payload := p }

/-- Number of close-callback invocations in an effect list. -/
def countCallClose : List Effect → Nat
  | [] => 0
  | Effect.callClose _ :: rest => countCallClose rest + 1
  | _ :: rest => countCallClose rest

/-- A sample non-close data frame (text "h"), used in concrete witnesses. -/
def sampleText : Frame := { opcode := CodeText, fin := true, payload := [104] }

/-- A sample close frame, used in concrete witnesses. -/
def sampleClose : Frame := { opcode := CodeClose, fin := true, status := some 1000 }

/-! ## Theorems -/

/-- Finding the first list element equal to a fixed string finds that
string itself exactly when it is a member. -/
theorem find_eq_self (p : String) (l : List String) :
    (l.find? fun a => p = a) = if p ∈ l then some p else Option.none := by
  induction l with
  | nil => simp
  | cons a rest ih =>
    rcases eq_or_ne p a with rfl | h
    · simp
    · simp [List.find?_cons, h, ih]

/-- The nested loops of `selectProtocol` return the first client offer
that is a member of the accepted list. -/
theorem selLoop_eq_find (protos accepted : List String) :
    selLoop protos accepted = protos.find? fun p => decide (p ∈ accepted) := by
  induction protos with
  | nil => rfl
  | cons p rest ih =>
    by_cases h : p ∈ accepted
    · simp [selLoop, find_eq_self, h, List.find?_cons]
    · simp [selLoop, find_eq_self, h, List.find?_cons, ih]

/-- C8: for every list of client-offered protocols and every ordered
server-supported list, `selectProtocol` returns the first client offer
that equals some server entry; if no offer matches, the first client
offer; and if the client offered none, the empty string. -/
theorem C8_selectProtocol_spec (protos accepted : List String) :
    selectProtocol protos accepted =
      match protos.find? (fun p => decide (p ∈ accepted)) with
      | some p => p
      | Option.none => protos.headD "" := by
  cases protos with
  | nil => rfl
  | cons p rest =>
    simp only [selectProtocol, selLoop_eq_find]
    cases h : (p :: rest).find? fun q => decide (q ∈ accepted) <;> simp [h]

/-- C9: a freshly reset connection (both `Conn` and `ServerConn`
variants) has inbound and outbound queue capacity 128, error mailbox
capacity 2, and default max payload size 1 <<< 20, the latter overridable
per connection. -/
theorem C9_endpoint_defaults :
    Conn.reset.inputCap = 128 ∧ Conn.reset.outputCap = 128 ∧
    Conn.reset.errchCap = 2 ∧ Conn.reset.maxPayloadSize = 1 <<< 20 ∧
    ServerConn.reset.inputCap = 128 ∧ ServerConn.reset.outputCap = 128 ∧
    ServerConn.reset.errchCap = 2 ∧ ServerConn.reset.maxPayloadSize = 1 <<< 20 ∧
    ∀ n : Nat, (Conn.reset.setMaxPayloadSize n).maxPayloadSize = n :=
  ⟨rfl, rfl, rfl, rfl, rfl, rfl, rfl, rfl, fun _ => rfl⟩

/-- C10: the default frame handler never invokes the message callback
with zero-length data; a complete message whose reassembled payload is
empty produces no delivery effect. -/
theorem C10_no_empty_message (cfg : Handlers) (buffered : Option (List Nat))
    (fr : Frame) (b : Bool) (d : List Nat)
    (hmem : Effect.deliverMsg b d ∈ (Server.handleFrameData cfg buffered fr).2) :
    d ≠ [] := by
  intro hd
  subst hd
  rcases buffered with _ | bf <;> by_cases hfin : fr.IsFin = true <;>
    simp [Server.handleFrameData, hfin] at hmem <;> tauto

/-- C10 witness: instantiation of `C10_no_empty_message` at a concrete
delivered message. -/
theorem C10_witness :
    Effect.deliverMsg false [1] ∈
        (Server.handleFrameData {} Option.none
          { opcode := CodeText, fin := true, payload := [1] }).2 ∧
      ([1] : List Nat) ≠ [] :=
  ⟨by decide,
    C10_no_empty_message {} Option.none
      { opcode := CodeText, fin := true, payload := [1] } false [1] (by decide)⟩

/-- C5: error routing of the supervisor loop of `Server.serveConn`
(`Conn`-based variant), amended.  A close-error-wrapped delivery breaks
the loop remembering the unwrapped inner error as the close cause; a
typed status `Error` delivery likewise breaks the loop remembering the
error itself; a nil delivery breaks the loop without recording a cause;
only any other error is passed to the error callback (when registered)
with the loop continuing. -/
theorem C5_supervisor_error_routing (cfg : Handlers) (st : SupState)
    (w : GoErr) (s : StatusCode) (r : List Nat) (t : Nat) :
    Server.serveConnStep cfg st (SelEvent.errEv (some (GoErr.closeWrapped w))) =
        ({ st with closeErr := some w }, [], false) ∧
      Server.serveConnStep cfg st (SelEvent.errEv (some (GoErr.wsError s r))) =
        ({ st with closeErr := some (GoErr.wsError s r) }, [], false) ∧
      Server.serveConnStep cfg st (SelEvent.errEv Option.none) = (st, [], false) ∧
      Server.serveConnStep cfg st (SelEvent.errEv (some (GoErr.other t))) =
        (st, if cfg.hasErr then [Effect.callError (GoErr.other t)] else [], true) :=
  ⟨rfl, rfl, rfl, rfl⟩

/-- C5 counterexample: a typed status `Error` delivered on the mailbox is
not wrapped as a close-error, yet the supervisor terminates the loop with
it as close cause and the error callback is never invoked (effects hold a
single close-callback invocation and no error-callback invocation). -/
theorem C5_counterexample :
    Server.serveConnRun {} {}
        [SelEvent.errEv (some (GoErr.wsError (some 1000) [120]))] =
      ([Effect.callClose (some (GoErr.wsError (some 1000) [120]))], true) := rfl

/-- C3: ping handling, amended.  In the `Conn`-based server the pong
autoresponse carries the ping payload with FIN set and opcode pong and is
enqueued whether or not a ping callback is registered, the callback being
a pure observer.  In the `ServerConn`-based variant a registered ping
callback replaces the default responder (no pong is enqueued), and the
default pong is enqueued without FIN. -/
theorem C3_ping_autoresponse (cfg : Handlers) (data : List Nat) :
    Server.handlePing cfg data =
        (if cfg.hasPing then [Effect.callPing data] else []) ++
          [Effect.enqueueFrame { fin := true, opcode := CodePong, payload := data }] ∧
      V4.pingDispatch false data =
        [Effect.enqueueFrame { opcode := CodePong, payload := data }] ∧
      V4.pingDispatch true data = [Effect.callPing data] :=
  ⟨rfl, rfl, rfl⟩

/-- C3 counterexample: in the `ServerConn`-based variant, a received ping
with payload 1,2,3 and a registered ping callback produces only the
callback invocation; no pong frame is enqueued. -/
theorem C3_counterexample :
    V4.pingDispatch true [1, 2, 3] = [Effect.callPing [1, 2, 3]] := rfl

/-- C7: reassembly fall-through, amended.  The default frame handler
performs no protocol-violation check: a continuation frame with no active
reassembly buffer is handled as a fresh data frame (its payload delivered
directly when FIN=1, or starting the buffer otherwise), and a new
text/binary frame while a buffer is present is appended to the buffer as
if it were a continuation; no close with status 1002 is produced. -/
theorem C7_no_violation_check (cfg : Handlers) (p b : List Nat) :
    Server.handleFrameData cfg Option.none
        { opcode := CodeContinuation, fin := true, payload := p } =
      (Option.none,
        if p ≠ [] ∧ cfg.hasMsg then [Effect.deliverMsg false p] else []) ∧
    Server.handleFrameData cfg Option.none
        { opcode := CodeContinuation, fin := false, payload := p } = (some p, []) ∧
    Server.handleFrameData cfg (some b)
        { opcode := CodeText, fin := false, payload := p } = (some (b ++ p), []) ∧
    Server.handleFrameData cfg (some b)
        { opcode := CodeBinary, fin := false, payload := p } = (some (b ++ p), []) := by
  refine ⟨?_, rfl, rfl, rfl⟩
  simp [Server.handleFrameData, Frame.IsFin, Frame.Payload, Frame.Code, CodeBinary,
    CodeContinuation]

/-- C7 counterexample: a continuation frame with FIN set and payload 97
arriving while no reassembly buffer is active is delivered to the message
callback as a message rather than triggering any close with status 1002
(the effect list holds no latch close and no enqueued frame). -/
theorem C7_counterexample :
    Server.handleFrame {} Option.none
        { opcode := CodeContinuation, fin := true, payload := [97] } =
      (Option.none, [Effect.deliverMsg false [97]]) := rfl

/-- Processing non-final continuation fragments accumulates their
payloads into the reassembly buffer without emitting any effect. -/
theorem handleFrames_conts (cfg : Handlers) (b : List Nat)
    (mids : List (List Nat)) (rest : List Frame) :
    Server.handleFrames cfg (some b) (mids.map contFrame ++ rest) =
      Server.handleFrames cfg (some (b ++ mids.flatten)) rest := by
  induction mids generalizing b with
  | nil => simp
  | cons p ps ih =>
    simp only [List.map_cons, List.cons_append, Server.handleFrames]
    rw [show Server.handleFrame cfg (some b) (contFrame p) = (some (b ++ p), [])
      from rfl]
    simp [ih, List.append_assoc]

/-- C1: behaviour of the default frame handler on a fragmented message,
as the code implements it.  An initial text or binary frame with FIN=0
followed by continuation fragments of which the last has FIN=1 yields
exactly one delivery whose data is the concatenation of the fragment
payloads in arrival order (when nonempty) — but whose is_binary flag is
always `false`, because the flag is computed from the opcode of the final
continuation frame (0) rather than from the remembered initial opcode. -/
theorem C1_fragmented_message (op : Nat) (p0 pk : List Nat)
    (mids : List (List Nat)) (hop : op = CodeText ∨ op = CodeBinary) :
    Server.handleFrames {} Option.none
        ({ opcode := op, fin := false, payload := p0 } ::
          (mids.map contFrame ++ [contFinFrame pk])) =
      (Option.none,
        if p0 ++ mids.flatten ++ pk = [] then []
        else [Effect.deliverMsg false (p0 ++ mids.flatten ++ pk)]) := by
  have h1 : Server.handleFrame {} Option.none
      { opcode := op, fin := false, payload := p0 } = (some p0, []) := by
    rcases hop with rfl | rfl <;> rfl
  rw [Server.handleFrames, h1]
  rw [handleFrames_conts]
  have h2 : ∀ bf : List Nat,
      Server.handleFrames {} (some bf) [contFinFrame pk] =
        (Option.none,
          if bf ++ pk = [] then []
          else [Effect.deliverMsg false (bf ++ pk)]) := by
    intro bf
    by_cases hc : bf ++ pk = [] <;>
      simp [Server.handleFrames, Server.handleFrame, Server.handleFrameData,
        contFinFrame, Frame.IsMasked, Frame.IsControl, Frame.IsFin, Frame.Payload,
        Frame.Code, CodeContinuation, CodeBinary, hc]
  rw [h2]
  simp [List.append_assoc]

/-- C1 witness: instantiation of `C1_fragmented_message` at the failing
input, a binary fragment 1 followed by a final continuation 2: the
message is delivered once with the concatenated payload but with
is_binary = false although the initial opcode was binary. -/
theorem C1_witness :
    (CodeBinary = CodeText ∨ CodeBinary = CodeBinary) ∧
    Server.handleFrames {} Option.none
        ({ opcode := CodeBinary, fin := false, payload := [1] } ::
          (([] : List (List Nat)).map contFrame ++ [contFinFrame [2]])) =
      (Option.none,
        if [1] ++ ([] : List (List Nat)).flatten ++ [2] = ([] : List Nat) then []
        else [Effect.deliverMsg false
          ([1] ++ ([] : List (List Nat)).flatten ++ [2])]) :=
  ⟨Or.inr rfl, C1_fragmented_message CodeBinary [1] [2] [] (Or.inr rfl)⟩

/-- Concatenation distributes over the close-callback counter. -/
theorem countCallClose_append (l1 l2 : List Effect) :
    countCallClose (l1 ++ l2) = countCallClose l1 + countCallClose l2 := by
  induction l1 with
  | nil => simp [countCallClose]
  | cons e rest ih =>
    cases e with
    | deliverMsg x y => simpa [countCallClose] using ih
    | callPing x => simpa [countCallClose] using ih
    | callPong x => simpa [countCallClose] using ih
    | callError x => simpa [countCallClose] using ih
    | callClose x =>
      show countCallClose (rest ++ l2) + 1 =
        countCallClose rest + 1 + countCallClose l2
      rw [ih]
      omega
    | enqueueFrame x => simpa [countCallClose] using ih
    | writeFrameDirect x => simpa [countCallClose] using ih
    | sendErr x => simpa [countCallClose] using ih
    | closeLatch => simpa [countCallClose] using ih

/-- The default ping handler never invokes the close callback. -/
theorem handlePing_no_callClose (cfg : Handlers) (d : List Nat) :
    countCallClose (Server.handlePing cfg d) = 0 := by
  rw [Server.handlePing, countCallClose_append]
  split <;> rfl

/-- The default pong handler never invokes the close callback. -/
theorem handlePong_no_callClose (cfg : Handlers) (d : List Nat) :
    countCallClose (Server.handlePong cfg d) = 0 := by
  rw [Server.handlePong]
  split <;> rfl

/-- A possibly empty singleton delivery contributes no close callback. -/
theorem countCallClose_delivery (c : Prop) [Decidable c] (b : Bool) (d : List Nat) :
    countCallClose (if c then [Effect.deliverMsg b d] else []) = 0 := by
  split <;> rfl

/-- The data-frame handler never invokes the close callback. -/
theorem handleFrameData_no_callClose (cfg : Handlers) (bf : Option (List Nat))
    (f : Frame) :
    countCallClose (Server.handleFrameData cfg bf f).2 = 0 := by
  simp only [Server.handleFrameData]
  exact countCallClose_delivery _ _ _

/-- The control-frame dispatcher never invokes the close callback. -/
theorem handleControl_no_callClose (cfg : Handlers) (f : Frame) :
    countCallClose (Server.handleControl cfg f) = 0 := by
  by_cases h1 : f.IsPing = true
  · simp [Server.handleControl, h1, handlePing_no_callClose]
  · by_cases h2 : f.IsPong = true
    · simp [Server.handleControl, h1, h2, handlePong_no_callClose]
    · by_cases h3 : f.IsClose = true <;>
        simp [Server.handleControl, h1, h2, h3, countCallClose]

/-- The default frame handler never invokes the close callback itself. -/
theorem handleFrame_no_callClose (cfg : Handlers) (b : Option (List Nat))
    (fr : Frame) :
    countCallClose (Server.handleFrame cfg b fr).2 = 0 := by
  simp only [Server.handleFrame]
  split <;> split <;>
    first
      | exact handleControl_no_callClose cfg _
      | exact handleFrameData_no_callClose cfg b _

/-- C2: close handshake, amended.  For a received close frame with
status S and reason R, `handleClose` sends the typed (S, R) error to the
error mailbox, enqueues a reply close frame with the same status S and
FIN set, and closes the closer latch; a supervisor that then takes the
error-mailbox case invokes the close callback exactly once with the
non-null (S, R) error; and over every schedule the close callback runs
exactly once per loop exit and never before it. -/
theorem C2_close_handshake (S : Nat) (R : List Nat) :
    Server.handleClose { opcode := CodeClose, fin := true, status := some S, payload := R } =
        [Effect.sendErr (some (GoErr.wsError (some S) R)),
          Effect.enqueueFrame { fin := true, opcode := CodeClose, status := some S },
          Effect.closeLatch] ∧
      Server.serveConnRun {} {} [SelEvent.errEv (some (GoErr.wsError (some S) R))] =
        ([Effect.callClose (some (GoErr.wsError (some S) R))], true) ∧
      ∀ (st : SupState) (evs : List SelEvent),
        countCallClose (Server.serveConnRun {} st evs).1 =
          if (Server.serveConnRun {} st evs).2 then 1 else 0 := by
  refine ⟨rfl, rfl, ?_⟩
  intro st evs
  induction evs generalizing st with
  | nil => rfl
  | cons ev rest ih =>
    cases ev with
    | inputEv fr =>
      simp [Server.serveConnRun, Server.serveConnStep, countCallClose_append,
        handleFrame_no_callClose, ih]
    | errEv e =>
      rcases e with _ | e
      · simp [Server.serveConnRun, Server.serveConnStep, countCallClose]
      · cases e <;>
          simp [Server.serveConnRun, Server.serveConnStep, countCallClose,
            countCallClose_append, ih]
    | closerEv =>
      simp [Server.serveConnRun, Server.serveConnStep, countCallClose]

/-- C2 counterexample: after `handleClose` processes close(1001, "bye")
both the error mailbox and the closer latch are signalled; a supervisor
whose select takes the simultaneously ready closer-latch case first exits
the loop with `closeErr` still nil, so the close callback receives a null
error instead of the non-null (1001, "bye") error the claim requires. -/
theorem C2_counterexample :
    Server.handleClose
        { opcode := CodeClose, fin := true, status := some 1001,
          payload := [98, 121, 101] } =
      [Effect.sendErr (some (GoErr.wsError (some 1001) [98, 121, 101])),
        Effect.enqueueFrame { fin := true, opcode := CodeClose, status := some 1001 },
        Effect.closeLatch] ∧
    Server.serveConnRun {} {} [SelEvent.closerEv] =
      ([Effect.callClose Option.none], true) := ⟨rfl, rfl⟩

/-- Once the closer latch is closed, further `CloseDetail` calls leave
the connection state untouched. -/
theorem closeMany_of_closed (st : CloserState) (h : st.closerClosed = true)
    (calls : List (StatusCode × List Nat)) : Conn.closeMany st calls = st := by
  induction calls with
  | nil => rfl
  | cons c rest ih =>
    cases c with
    | mk s r =>
      rw [Conn.closeMany, Conn.CloseDetail, if_pos h]
      exact ih

/-- C4: local close, as the code implements it.  Sequential invocations
of `Conn.CloseDetail` (one or more) enqueue exactly one close frame — the
first call's — and close the closer latch exactly once; a supervisor
observing the latch invokes the close callback exactly once.  The
`ServerConn` variant diverges: its `Close` returns nil leaving the latch
open and enqueueing nothing when the connection is open, and panics when
the latch is already closed. -/
theorem C4_local_close (s : StatusCode) (r : List Nat)
    (rest : List (StatusCode × List Nat)) :
    Conn.closeMany {} ((s, r) :: rest) =
        { closerClosed := true,
          output := [(((AcquireFrame.SetClose).SetStatus s).SetFin).WriteString r] } ∧
      Server.serveConnRun {} {} [SelEvent.closerEv] =
        ([Effect.callClose Option.none], true) ∧
      V4.ServerConnClose false = some (false, []) ∧
      V4.ServerConnClose true = Option.none := by
  refine ⟨?_, rfl, rfl, rfl⟩
  rw [Conn.closeMany,
    show Conn.CloseDetail {} s r =
      { closerClosed := true,
        output := [(((AcquireFrame.SetClose).SetStatus s).SetFin).WriteString r] }
      from rfl]
  exact closeMany_of_closed _ rfl rest

/-- The post-latch drain loop of the writer performs one receive more
than there are frames in the queue, so after writing every queued frame
it blocks forever on the never-closed outbound channel. -/
theorem drainLoop_blocked (q w : List Frame) :
    Conn.drainLoop (q.length + 1) q w = Conn.WriterResult.blocked (w ++ q) := by
  induction q generalizing w with
  | nil => simp [Conn.drainLoop]
  | cons fr rest ih =>
    show Conn.drainLoop (rest.length + 1 + 1) (fr :: rest) w = _
    rw [Conn.drainLoop, ih]
    simp

/-- Select phase followed by the drain: with no close frame among the
frames taken before the latch fires, every frame is written and the
writer ends up blocked. -/
theorem writeLoopGo_drain (sel : List Frame) (q w : List Frame)
    (hs : ∀ fr ∈ sel, fr.IsClose = false) :
    Conn.writeLoopGo w sel q = Conn.WriterResult.blocked (w ++ sel ++ q) := by
  induction sel generalizing w with
  | nil => simp [Conn.writeLoopGo, drainLoop_blocked]
  | cons fr rest ih =>
    have hf : fr.IsClose = false := hs fr (by simp)
    rw [Conn.writeLoopGo, if_neg (by simp [hf]),
      ih (w ++ [fr]) (fun f hmem => hs f (by simp [hmem]))]
    simp

/-- Select phase: the writer returns immediately after writing a close
frame taken from the outbound queue. -/
theorem writeLoopGo_close_exit (sel post q w : List Frame) (cf : Frame)
    (hs : ∀ fr ∈ sel, fr.IsClose = false) (hc : cf.IsClose = true) :
    Conn.writeLoopGo w (sel ++ cf :: post) q =
      Conn.WriterResult.exited (w ++ sel ++ [cf]) := by
  induction sel generalizing w with
  | nil => simp [Conn.writeLoopGo, hc]
  | cons fr rest ih =>
    have hf : fr.IsClose = false := hs fr (by simp)
    rw [List.cons_append, Conn.writeLoopGo, if_neg (by simp [hf]),
      ih (w ++ [fr]) (fun f hmem => hs f (by simp [hmem]))]
    simp

/-- C6: writer behaviour after the closer latch fires, as the code
implements it.  Every outbound frame enqueued before the latch was marked
is written (both those the select phase takes and those remaining in the
queue), and the writer exits immediately after writing a close frame
taken from the queue during the select phase; but when the drain path
runs it never exits: after writing the queued frames it blocks forever in
an extra receive on the never-closed outbound channel. -/
theorem C6_writer_after_latch (sel post q : List Frame) (cf : Frame)
    (hs : ∀ fr ∈ sel, fr.IsClose = false) (hc : cf.IsClose = true) :
    Conn.writeLoop sel q = Conn.WriterResult.blocked (sel ++ q) ∧
      Conn.writeLoop (sel ++ cf :: post) q =
        Conn.WriterResult.exited (sel ++ [cf]) := by
  constructor
  · simpa using writeLoopGo_drain sel q [] hs
  · simpa using writeLoopGo_close_exit sel post q [] cf hs hc

/-- C6 witness: instantiation of `C6_writer_after_latch` at a concrete
run: with one text frame taken by the select phase and one close frame
left in the queue at latch time, the writer writes both and blocks; had
the close frame been taken in the select phase instead, the writer would
have exited right after writing it. -/
theorem C6_witness :
    ((∀ fr ∈ [sampleText], fr.IsClose = false) ∧ sampleClose.IsClose = true) ∧
      (Conn.writeLoop [sampleText] [sampleClose] =
          Conn.WriterResult.blocked ([sampleText] ++ [sampleClose]) ∧
        Conn.writeLoop ([sampleText] ++ sampleClose :: []) [sampleClose] =
          Conn.WriterResult.exited ([sampleText] ++ [sampleClose])) :=
  ⟨⟨by decide, by decide⟩,
    C6_writer_after_latch [sampleText] [] [sampleClose] sampleClose
      (by decide) (by decide)⟩

end Ws
